import Mathlib

/-!
Verification of the like-bot core (src/bot.js, src/helper.js).

The JavaScript source is shallowly embedded: strings are Lean `String`s and
the JS string operations used by the bot (`split`, `includes`, `replace`) are
re-implemented over the underlying character lists with structural fuel
recursion so that every definition is executable and kernel-reducible.
Page/DOM interaction, randomness and the like-click outcome are modelled as
explicit oracle parameters; the persisted ledger is an explicit record.
-/

/-! ### JS string primitives -/

/-- One scanning pass of JS `String.prototype.split` with a non-empty string
separator: scan left to right, cut at each (non-overlapping) occurrence of
`sep`.  `fuel` bounds the recursion; any `fuel ≥ s.length` gives the real
answer (each step consumes at least one character). -/
def strSplitAux (sep : List Char) : Nat → List Char → List Char → List (List Char)
  | 0, s, acc => [acc.reverse ++ s]
  | fuel + 1, s, acc =>
    match s with
    | [] => [acc.reverse]
    | c :: rest =>
      if sep.isPrefixOf (c :: rest) then
        acc.reverse :: strSplitAux sep fuel (List.drop sep.length (c :: rest)) []
      else
        strSplitAux sep fuel rest (c :: acc)

/-- JS `s.split(sep)` for a non-empty string separator. -/
def jsSplit (s sep : String) : List String :=
  (strSplitAux sep.data (s.data.length + 1) s.data []).map List.asString

/-- Does `sub` occur as a contiguous substring of `s`?  Models JS
`s.includes(sub)` (and the CSS `href*=` containment used by the selectors). -/
def listContainsSub (sub : List Char) : List Char → Bool
  | [] => sub.isEmpty
  | c :: rest => sub.isPrefixOf (c :: rest) || listContainsSub sub rest

/-- JS `s.includes(sub)`. -/
def strIncludes (s sub : String) : Bool :=
  listContainsSub sub.data s.data

/-- Replace every (leftmost, non-overlapping) occurrence of `pat` by `rep`;
models JS `s.replace(/pat/g, rep)` for a literal pattern.  Fuel-bounded as in
`strSplitAux`. -/
def strReplaceAux (pat rep : List Char) : Nat → List Char → List Char
  | 0, s => s
  | fuel + 1, s =>
    match s with
    | [] => []
    | c :: rest =>
      if pat.isPrefixOf (c :: rest) then
        rep ++ strReplaceAux pat rep fuel (List.drop pat.length (c :: rest))
      else
        c :: strReplaceAux pat rep fuel rest

/-- JS `s.replace(/pat/g, rep)` for a literal, non-empty pattern. -/
def jsReplaceAll (s pat rep : String) : String :=
  (strReplaceAux pat.data rep.data (s.data.length + 1) s.data).asString

/-- Is the string made of decimal digits only? -/
def allDigits (s : String) : Bool :=
  s.data.all (fun c => c.isDigit)

/-! ### ContentIdentifier extraction

`bot.js` derives the dedup key of a status URL as
`url.split('/status/')[1]?.split('?')[0]` (processUrl lines 359, 393 and
likeTweetById line 246). -/

/-- JS `s.split('?')[0]`: the part of `s` before the first `?` (the whole
string when there is none). -/
def beforeQuery (s : String) : String :=
  (jsSplit s "?").headD ""

/-- The dedup key `url.split('/status/')[1]?.split('?')[0]`; `none` models the
JS `undefined` arising when the URL has no `/status/` segment. -/
def statusIdOf (url : String) : Option String :=
  ((jsSplit url "/status/")[1]?).map beforeQuery

/-- JS truthiness of the extracted id: both `undefined` and the empty string
are falsy, so guards of the form `if (statusId)` see `none` here. -/
def truthyId : Option String → Option String
  | some s => if s = "" then none else some s
  | none => none

/-! ### Ledger store (loadProcessed / saveProcessed, bot.js lines 47-83) -/

/-- Persisted processed-state: `liked` is the key set of the JSON map
`liked : mapping id → true`, plus the rolling daily counter. -/
structure Ledger where
  liked : List String
  dayCount : Nat
  dayStart : String
deriving Repr, DecidableEq

/-- The zero-valued ledger `loadProcessed` starts from when the file is
absent or unreadable. -/
def initialLedger : Ledger :=
  { liked := [], dayCount := 0, dayStart := "" }

/-- `loadProcessed` (bot.js lines 47-73): read the persisted ledger
(`none` models an absent/unreadable file), then normalize `dayStart` against
the current date, resetting `dayCount` to 0 on mismatch. -/
def loadProcessed (fileData : Option Ledger) (today : String) : Ledger :=
  let processed := fileData.getD initialLedger
  if processed.dayStart ≠ today then
    { processed with dayCount := 0, dayStart := today }
  else
    processed

/-! ### Backoff (helper.js lines 30-36)

`Math.random()` is an explicit parameter `r ∈ [0,1)`; JS number arithmetic on
these quantities is modelled exactly over `ℚ`. -/

/-- `randomBetween(min, max)` = `Math.floor(r * (max - min + 1)) + min`. -/
def randomBetween (r lo hi : ℚ) : ℚ :=
  (⌊r * (hi - lo + 1)⌋ : ℚ) + lo

/-- `calculateBackoff(attempt)`: exponential delay doubling per attempt,
capped at 60000 ms, plus jitter `randomBetween(0, 0.3 * delay)`. -/
def calculateBackoff (attempt : Nat) (r : ℚ) : ℚ :=
  let baseDelay : ℚ := 1000
  let maxDelay : ℚ := 60000
  let exponentialDelay := min (baseDelay * 2 ^ attempt) maxDelay
  let jitter := randomBetween r 0 (exponentialDelay * (3 / 10))
  exponentialDelay + jitter

/-! ### Navigation controller (robustGoto, bot.js lines 86-138)

A navigation attempt either succeeds or fails with an error message; the
browser behaviour is an oracle `primary : Nat → Option String` giving the
outcome of the `attempt`-th primary-domain `page.goto` (`none` = success,
`some e` = failure with error `e`), and `fallbackOutcome` the outcome of the
single fallback-domain attempt.  The model returns the list of URLs attempted
in order together with the surfaced result. -/

/-- `maxRetries` of `robustGoto`. -/
def maxRetries : Nat := 2

/-- The primary-domain retry loop of `robustGoto` (bot.js lines 91-115):
arguments are attempts left, current attempt index, and the running
`lastError`; the result is the attempted-URL trace and `none` on success or
`some lastError` when every attempt failed. -/
def gotoLoop (url : String) (primary : Nat → Option String) :
    Nat → Nat → Option String → List String × Option String
  | 0, _, lastError => ([], lastError)
  | n + 1, attempt, _ =>
    match primary attempt with
    | none => ([url], none)
    | some e =>
      let r := gotoLoop url primary n (attempt + 1) (some e)
      (url :: r.1, r.2)

/-- `robustGoto` (bot.js lines 86-138): try the primary URL `maxRetries`
times; if all fail and the URL mentions `x.com`, try the `twitter.com`
substitution exactly once; if that also fails, surface `lastError` (the last
primary-domain error, per `throw lastError || error` with `lastError` set). -/
def robustGoto (url : String) (primary : Nat → Option String)
    (fallbackOutcome : Option String) : List String × Except String Unit :=
  let r := gotoLoop url primary maxRetries 0 none
  match r.2 with
  | none => (r.1, Except.ok ())
  | some lastError =>
    if strIncludes url "x.com" then
      let twitterUrl := jsReplaceAll url "x.com" "twitter.com"
      match fallbackOutcome with
      | none => (r.1 ++ [twitterUrl], Except.ok ())
      | some _ => (r.1 ++ [twitterUrl], Except.error lastError)
    else
      (r.1, Except.error lastError)

/-! ### Action executor (likeTweetById, bot.js lines 241-310)

The DOM is a list of articles; an article carries the `href`s of its anchor
elements and whether the `unlike` marker (done-state) is visible.  The
outcome of the real like click on the `retry`-th attempt is an oracle
(`none` = the click succeeds, `some e` = it throws `e`).  The result pairs
the JS return value with the number of real click attempts performed. -/

/-- A DOM article as seen by the locators of the executor. -/
structure Article where
  links : List String
  unlikeVisible : Bool
deriving Repr, DecidableEq

/-- Result object of `likeTweetById`; absent JS fields default to
`already = false`, `reason = none`. -/
structure LikeResult where
  ok : Bool
  already : Bool := false
  reason : Option String := none
deriving Repr, DecidableEq

/-- The `ok=false` result returned when no matching article is found. -/
def notFoundResult : LikeResult :=
  { ok := false, reason := some "tweet-not-found" }

/-- Locator `article:has(a[href="statusUrl"])`: exact permalink match. -/
def exactMatch (statusUrl : String) (a : Article) : Bool :=
  a.links.contains statusUrl

/-- Locator `article:has(a[href*="/status/ID"])`: identifier-segment match. -/
def fallbackMatch (id : String) (a : Article) : Bool :=
  a.links.any (fun l => strIncludes l ("/status/" ++ id))

/-- Target resolution of `likeTweetById` (bot.js lines 243-249): first
article matching the exact permalink, else — when the extracted `statusId`
is truthy — the first article matching the identifier segment. -/
def findTarget (page : List Article) (statusUrl : String) : Option Article :=
  match page.find? (exactMatch statusUrl) with
  | some a => some a
  | none =>
    match truthyId (statusIdOf statusUrl) with
    | some id => page.find? (fallbackMatch id)
    | none => none

/-- The retry loop of `likeTweetById` (bot.js lines 257-307): re-query the
target fresh, return `already` when the unlike marker is visible, otherwise
perform the real click; a throwing click is retried while retries remain and
re-raised on the last one.  Arguments: retries left, retry index, clicks
performed so far. -/
def likeLoop (page : List Article) (statusUrl : String)
    (clickOutcome : Nat → Option String) :
    Nat → Nat → Nat → Except String (LikeResult × Nat)
  | 0, _, clicks => Except.ok ({ ok := false, reason := some "click-failed" }, clicks)
  | n + 1, retry, clicks =>
    match findTarget page statusUrl with
    | none => Except.ok (notFoundResult, clicks)
    | some art =>
      if art.unlikeVisible then
        Except.ok ({ ok := true, already := true }, clicks)
      else
        match clickOutcome retry with
        | none => Except.ok ({ ok := true }, clicks + 1)
        | some e =>
          match n with
          | 0 => Except.error e
          | m + 1 => likeLoop page statusUrl clickOutcome (m + 1) (retry + 1) (clicks + 1)

/-- `likeTweetById` (bot.js lines 241-310): locate the article for
`statusUrl`; absent a match return the `tweet-not-found` result; otherwise
run the click loop with 3 total attempts. -/
def likeTweetById (page : List Article) (statusUrl : String)
    (clickOutcome : Nat → Option String) : Except String (LikeResult × Nat) :=
  match findTarget page statusUrl with
  | none => Except.ok (notFoundResult, 0)
  | some _ => likeLoop page statusUrl clickOutcome 3 0 0

/-! ### Run orchestrator: the per-target act loop (processUrl, bot.js 352-464)

The loop state carries the ledger, the per-target `likedCount`, the
`processedUrls` set, the working `tweetUrls` list, plus two instrumentation
fields: the list of status URLs on which `likeTweetById` was invoked and the
number of `saveProcessed` calls.  The environment is a `World` holding the
stream of executor outcomes (`Except.error` models a thrown exception) and
the stream of URL batches produced by re-collection scrolls. -/

/-- Configured caps (bot.js lines 31, 34). -/
structure BotConfig where
  TWEETS_TO_LIKE : Nat
  DAILY_CAP : Nat
deriving Repr, DecidableEq

/-- Mutable state of the per-target act loop. -/
structure LoopState where
  ledger : Ledger
  likedCount : Nat
  processedUrls : List String
  tweetUrls : List String
  executorCalls : List String
  saves : Nat
deriving Repr, DecidableEq

/-- Oracle streams: outcomes of successive `likeTweetById` invocations and
URL batches of successive `collectTweetIds` re-collection calls. -/
structure World where
  likeResults : List (Except String LikeResult)
  recollects : List (List String)
deriving Repr

/-- Insertion into a JS `Set` / into the keys of `liked` (duplicate-free,
insertion-ordered). -/
def insertStr (l : List String) (s : String) : List String :=
  if l.contains s then l else l ++ [s]

/-- Mutation performed by the orchestrator on one `likeTweetById` outcome
(bot.js lines 402-445): a thrown error or an `ok=false` result only records
the URL as processed; an `ok=true` result bumps `likedCount` and `dayCount`
unless `already`, marks the truthy `statusId` liked, records the URL, and
saves the ledger. -/
def applyLikeOutcome (st : LoopState) (statusUrl : String) (statusId : Option String)
    (outcome : Except String LikeResult) : LoopState :=
  match outcome with
  | Except.error _ => { st with processedUrls := insertStr st.processedUrls statusUrl }
  | Except.ok r =>
    if r.ok then
      let st1 :=
        if r.already then st
        else { st with likedCount := st.likedCount + 1,
                       ledger := { st.ledger with dayCount := st.ledger.dayCount + 1 } }
      let st2 :=
        match statusId with
        | some id => { st1 with ledger := { st1.ledger with liked := insertStr st1.ledger.liked id } }
        | none => st1
      { st2 with processedUrls := insertStr st2.processedUrls statusUrl,
                 saves := st2.saves + 1 }
    else
      { st with processedUrls := insertStr st.processedUrls statusUrl }

/-- Pop the next executor outcome off the world (an exhausted stream repeats
the harmless `tweet-not-found` result). -/
def nextLikeResult (w : World) : Except String LikeResult × World :=
  match w.likeResults with
  | o :: rest => (o, { w with likeResults := rest })
  | [] => (Except.ok notFoundResult, w)

/-- One item of the inner `for` loop (bot.js lines 392-445): extract the id,
skip when it is truthy and already in `liked`, otherwise invoke the executor
and apply its outcome. -/
def handleItem (st : LoopState) (w : World) (statusUrl : String) : LoopState × World :=
  let statusId := truthyId (statusIdOf statusUrl)
  let skip :=
    match statusId with
    | some id => st.ledger.liked.contains id
    | none => false
  if skip then
    ({ st with processedUrls := insertStr st.processedUrls statusUrl }, w)
  else
    let ow := nextLikeResult w
    (applyLikeOutcome { st with executorCalls := st.executorCalls ++ [statusUrl] }
      statusUrl statusId ow.1, ow.2)

/-- The inner `for` loop over one filtered batch (bot.js lines 379-446):
before each item the daily cap and the per-target cap are re-checked and the
batch is abandoned the moment either is reached. -/
def actLoopBatch (cfg : BotConfig) : List String → LoopState → World → LoopState × World
  | [], st, w => (st, w)
  | statusUrl :: rest, st, w =>
    if cfg.DAILY_CAP ≤ st.ledger.dayCount then (st, w)
    else if cfg.TWEETS_TO_LIKE ≤ st.likedCount then (st, w)
    else
      let sw := handleItem st w statusUrl
      actLoopBatch cfg rest sw.1 sw.2

/-- The pre-dispatch filter (bot.js lines 358-361): keep URLs whose raw
extracted id is not a key of `liked` and which are not yet processed. -/
def remainingUrls (st : LoopState) : List String :=
  st.tweetUrls.filter (fun url =>
    (match statusIdOf url with
     | some s => !(st.ledger.liked.contains s)
     | none => true) && !(st.processedUrls.contains url))

/-- Pop the next re-collection batch off the world. -/
def nextRecollect (w : World) : List String × World :=
  match w.recollects with
  | us :: rest => (us, { w with recollects := rest })
  | [] => ([], w)

/-- Scroll-and-recollect step (bot.js lines 365-375 and 452-462): merge the
freshly collected URLs, minus the already-processed ones, into the working
list. -/
def recollectMore (st : LoopState) (w : World) : LoopState × World :=
  let uw := nextRecollect w
  let newUnique := uw.1.filter (fun u => !(st.processedUrls.contains u))
  ({ st with tweetUrls := st.tweetUrls ++ newUnique }, uw.2)

/-- The outer `while` loop of `processUrl` (bot.js lines 356-464), fuelled:
while the per-target count, the daily count and the working list allow,
filter the batch; an empty batch triggers a re-collection, otherwise the
batch is acted on and, when quotas remain and everything collected has been
processed, a re-collection follows. -/
def processUrlLoop (cfg : BotConfig) : Nat → LoopState → World → LoopState × World
  | 0, st, w => (st, w)
  | fuel + 1, st, w =>
    if st.likedCount < cfg.TWEETS_TO_LIKE ∧ st.ledger.dayCount < cfg.DAILY_CAP ∧
        0 < st.tweetUrls.length then
      let remaining := remainingUrls st
      if remaining.isEmpty then
        let sw := recollectMore st w
        processUrlLoop cfg fuel sw.1 sw.2
      else
        let sw := actLoopBatch cfg remaining st w
        if sw.1.likedCount < cfg.TWEETS_TO_LIKE ∧ sw.1.ledger.dayCount < cfg.DAILY_CAP then
          if (sw.1.tweetUrls.filter (fun u => !(sw.1.processedUrls.contains u))).length = 0 then
            let sw2 := recollectMore sw.1 sw.2
            processUrlLoop cfg fuel sw2.1 sw2.2
          else
            processUrlLoop cfg fuel sw.1 sw.2
        else
          processUrlLoop cfg fuel sw.1 sw.2
    else
      (st, w)

/-- State at the start of the act loop (bot.js lines 352-353): ledger as
loaded, `likedCount = 0`, empty processed set, the initially collected URLs,
no executor calls, no saves yet. -/
def initLoopState (ledger : Ledger) (tweetUrls : List String) : LoopState :=
  { ledger := ledger, likedCount := 0, processedUrls := [], tweetUrls := tweetUrls,
    executorCalls := [], saves := 0 }

/-! ### Content discovery (collectTweetIds, bot.js lines 141-238)

One loop iteration of the scroll-and-collect loop observes the extracted
status URLs of the articles currently in the DOM and the page height measured
after the scroll; the behaviour of the page over time is a list of such
observations (an exhausted list models a page that stops responding). -/

/-- Observations of one scroll iteration. -/
structure ScanStep where
  found : List String
  height : Nat
deriving Repr, DecidableEq

/-- `MAX_NO_CHANGE` (bot.js line 146): the no-growth threshold. -/
def MAX_NO_CHANGE : Nat := 3

/-- The per-iteration collection (bot.js lines 193-212): add each extracted
URL to the unique set, stopping the adds once the set has `maxScan`
elements. -/
def addUrls (maxScan : Nat) : List String → List String → List String
  | acc, [] => acc
  | acc, u :: rest =>
    if maxScan ≤ acc.length then acc
    else addUrls maxScan (insertStr acc u) rest

/-- The scroll-and-collect loop (bot.js lines 188-231): loop while the unique
count is below `maxScan` and fewer than `MAX_NO_CHANGE` consecutive
iterations saw an unchanged page height.  Returns the collected URLs in
discovery order and the number of iterations consumed. -/
def collectAux (maxScan : Nat) :
    List ScanStep → List String → Nat → Nat → List String × Nat
  | [], acc, _, _ => (acc, 0)
  | step :: rest, acc, lastHeight, noChangeCount =>
    if acc.length < maxScan ∧ noChangeCount < MAX_NO_CHANGE then
      let acc2 := addUrls maxScan acc step.found
      let hc :=
        if step.height = lastHeight then (lastHeight, noChangeCount + 1)
        else (step.height, 0)
      let rn := collectAux maxScan rest acc2 hc.1 hc.2
      (rn.1, rn.2 + 1)
    else
      (acc, 0)

/-- `collectTweetIds` (bot.js lines 141-238): run the loop from an empty set,
`lastHeight = 0`, `noChangeCount = 0`. -/
def collectTweetIds (maxScan : Nat) (steps : List ScanStep) : List String × Nat :=
  collectAux maxScan steps [] 0 0

/-! ### Shared helper lemmas -/

theorem insertStr_contains_self (l : List String) (s : String) :
    (insertStr l s).contains s = true := by
  unfold insertStr
  split
  · assumption
  · simp [List.elem_iff]

theorem insertStr_idem (l : List String) (s : String) :
    insertStr (insertStr l s) s = insertStr l s := by
  unfold insertStr
  split
  · simp_all
  · simp [List.elem_iff]

theorem mem_insertStr_of_mem (l : List String) (s x : String) (hx : x ∈ l) :
    x ∈ insertStr l s := by
  unfold insertStr
  split
  · exact hx
  · exact List.mem_append_left _ hx

theorem insertStr_length_le (l : List String) (s : String) :
    (insertStr l s).length ≤ l.length + 1 := by
  unfold insertStr
  split
  · omega
  · simp

theorem mem_of_contains (l : List String) (s : String) (h : l.contains s = true) :
    s ∈ l :=
  List.elem_iff.mp h

/-! ### C2: date-rollover at load -/

/-- C2: for every persisted ledger (including the zero-valued one standing in
for an absent or unreadable file), when its `dayStart` differs from today,
`loadProcessed` resets `dayCount` to 0 and sets `dayStart` to today while
leaving `liked` unchanged; when `dayStart` already equals today the ledger is
returned as read. -/
theorem loadProcessed_date_rollover (fileData : Option Ledger) (today : String) :
    ((fileData.getD initialLedger).dayStart ≠ today →
      loadProcessed fileData today =
        { fileData.getD initialLedger with dayCount := 0, dayStart := today }) ∧
    ((fileData.getD initialLedger).dayStart = today →
      loadProcessed fileData today = fileData.getD initialLedger) := by
  constructor <;> intro h <;> simp [loadProcessed, h]

/-- Witness for C2 at the example from the spec: a ledger from yesterday with
`dayCount = 300` is reset to 0 with the current date and `liked` untouched. -/
theorem loadProcessed_date_rollover_witness :
    loadProcessed (some { liked := ["5"], dayCount := 300, dayStart := "2026-10-11" })
        "2026-10-12" =
      { liked := ["5"], dayCount := 0, dayStart := "2026-10-12" } :=
  (loadProcessed_date_rollover
    (some { liked := ["5"], dayCount := 300, dayStart := "2026-10-11" })
    "2026-10-12").1 (by decide)

/-! ### C7: backoff formula -/

/-- C7: for every attempt index and every jitter draw `r ∈ [0,1)`, the delay
lies between the capped exponential base `min (1000·2^n) 60000` and 1.3 times
that value. -/
theorem calculateBackoff_bounds (n : Nat) (r : ℚ) (h0 : 0 ≤ r) (h1 : r < 1) :
    min (1000 * 2 ^ n) 60000 ≤ calculateBackoff n r ∧
    calculateBackoff n r ≤ (13 / 10) * min (1000 * 2 ^ n) 60000 := by
  have hEpos : (0 : ℚ) < min (1000 * 2 ^ n) 60000 := by
    apply lt_min
    · positivity
    · norm_num
  obtain ⟨m, hm⟩ : ∃ m : ℤ, min ((1000 : ℚ) * 2 ^ n) 60000 * (3 / 10) = (m : ℚ) := by
    rcases min_cases ((1000 : ℚ) * 2 ^ n) 60000 with ⟨hmin, _⟩ | ⟨hmin, _⟩
    · exact ⟨300 * 2 ^ n, by rw [hmin]; push_cast; ring⟩
    · exact ⟨18000, by rw [hmin]; norm_num⟩
  have hxlt : r * (min ((1000 : ℚ) * 2 ^ n) 60000 * (3 / 10) - 0 + 1) <
      min ((1000 : ℚ) * 2 ^ n) 60000 * (3 / 10) - 0 + 1 := by
    have hpos : (0 : ℚ) < min ((1000 : ℚ) * 2 ^ n) 60000 * (3 / 10) - 0 + 1 := by
      nlinarith
    nlinarith
  have hfloor_ub : (⌊r * (min ((1000 : ℚ) * 2 ^ n) 60000 * (3 / 10) - 0 + 1)⌋ : ℚ) ≤
      min ((1000 : ℚ) * 2 ^ n) 60000 * (3 / 10) := by
    have : ⌊r * (min ((1000 : ℚ) * 2 ^ n) 60000 * (3 / 10) - 0 + 1)⌋ < m + 1 := by
      rw [Int.floor_lt]
      push_cast
      linarith [hxlt, hm]
    have hle : ⌊r * (min ((1000 : ℚ) * 2 ^ n) 60000 * (3 / 10) - 0 + 1)⌋ ≤ m := by omega
    calc (⌊r * (min ((1000 : ℚ) * 2 ^ n) 60000 * (3 / 10) - 0 + 1)⌋ : ℚ)
        ≤ (m : ℚ) := by exact_mod_cast hle
      _ = min ((1000 : ℚ) * 2 ^ n) 60000 * (3 / 10) := hm.symm
  have hfloor_lb : (0 : ℚ) ≤
      (⌊r * (min ((1000 : ℚ) * 2 ^ n) 60000 * (3 / 10) - 0 + 1)⌋ : ℚ) := by
    have : (0 : ℤ) ≤ ⌊r * (min ((1000 : ℚ) * 2 ^ n) 60000 * (3 / 10) - 0 + 1)⌋ := by
      rw [Int.le_floor]
      push_cast
      nlinarith
    exact_mod_cast this
  unfold calculateBackoff randomBetween
  constructor
  · linarith
  · linarith

/-- Witness for C7 at attempt 0 with jitter draw 1/2. -/
theorem calculateBackoff_bounds_witness :
    (0 : ℚ) ≤ 1 / 2 ∧ (1 / 2 : ℚ) < 1 ∧
    (min (1000 * 2 ^ 0) 60000 ≤ calculateBackoff 0 (1 / 2) ∧
     calculateBackoff 0 (1 / 2) ≤ (13 / 10) * min (1000 * 2 ^ 0) 60000) :=
  ⟨by norm_num, by norm_num, calculateBackoff_bounds 0 (1 / 2) (by norm_num) (by norm_num)⟩

/-! ### C6: fallback navigation -/

/-- C6: when both primary-domain attempts on an `x.com` URL fail, the
alternate-domain URL (same path, `x.com` replaced by `twitter.com`) is
attempted exactly once — the attempt trace is precisely primary, primary,
fallback — and when the fallback also fails the surfaced error is the last
primary-domain error. -/
theorem robustGoto_fallback_once (url : String) (primary : Nat → Option String)
    (fallbackOutcome : Option String) (e0 e1 : String)
    (h0 : primary 0 = some e0) (h1 : primary 1 = some e1)
    (hx : strIncludes url "x.com" = true) :
    (robustGoto url primary fallbackOutcome).1 =
      [url, url, jsReplaceAll url "x.com" "twitter.com"] ∧
    (∀ e, fallbackOutcome = some e →
      (robustGoto url primary fallbackOutcome).2 = Except.error e1) := by
  have hloop : gotoLoop url primary maxRetries 0 none = ([url, url], some e1) := by
    simp [gotoLoop, maxRetries, h0, h1]
  cases fallbackOutcome <;> simp [robustGoto, hloop, hx]

/-- Witness for C6: a concrete `x.com` URL whose two primary attempts fail
and whose fallback attempt fails; the trace shows one `twitter.com` attempt
and the surfaced error is the last primary error. -/
theorem robustGoto_fallback_once_witness :
    (robustGoto "https://x.com/u" (fun _ => some "goto failed") (some "fb")).1 =
      ["https://x.com/u", "https://x.com/u", "https://twitter.com/u"] ∧
    (robustGoto "https://x.com/u" (fun _ => some "goto failed") (some "fb")).2 =
      Except.error "goto failed" := by
  have h := robustGoto_fallback_once "https://x.com/u" (fun _ => some "goto failed")
    (some "fb") "goto failed" "goto failed" rfl rfl (by decide)
  exact ⟨h.1.trans (by decide), h.2 "fb" rfl⟩

/-! ### C5: not-found result of the action executor -/

/-- C5 counterexample: on a page with no matching article, the result of
`likeTweetById` is the normal value `ok = false` with reason
"tweet-not-found" — the reason string is not "not-found" as claimed. -/
theorem likeTweetById_reason_counterexample :
    likeTweetById [] "https://x.com/u/status/9" (fun _ => none) =
      Except.ok ({ ok := false, already := false, reason := some "tweet-not-found" }, 0) ∧
    some "tweet-not-found" ≠ some ("not-found" : String) := by
  exact ⟨rfl, by decide⟩

/-- C5 (amended): for every page state in which no article matches the given
status URL — neither the exact permalink form nor the identifier-segment
fallback form — `likeTweetById` returns the normal value `ok = false` with
reason "tweet-not-found" (not a raised error). -/
theorem likeTweetById_not_found (page : List Article) (statusUrl : String)
    (clickOutcome : Nat → Option String)
    (hexact : ∀ a ∈ page, exactMatch statusUrl a = false)
    (hfb : ∀ id, truthyId (statusIdOf statusUrl) = some id →
      ∀ a ∈ page, fallbackMatch id a = false) :
    likeTweetById page statusUrl clickOutcome =
      Except.ok ({ ok := false, already := false, reason := some "tweet-not-found" }, 0) := by
  have hft : findTarget page statusUrl = none := by
    unfold findTarget
    have h1 : page.find? (exactMatch statusUrl) = none :=
      List.find?_eq_none.mpr (fun a ha => by simp [hexact a ha])
    rw [h1]
    cases h : truthyId (statusIdOf statusUrl) with
    | none => rfl
    | some id => exact List.find?_eq_none.mpr (fun a ha => by simp [hfb id h a ha])
  simp [likeTweetById, hft, notFoundResult]

/-- Witness for C5 (amended) on a page holding one non-matching article. -/
theorem likeTweetById_not_found_witness :
    likeTweetById [{ links := ["https://x.com/u/status/7"], unlikeVisible := false }]
        "https://x.com/u/status/9" (fun _ => none) =
      Except.ok ({ ok := false, already := false, reason := some "tweet-not-found" }, 0) := by
  refine likeTweetById_not_found _ _ _ ?_ ?_
  · intro a ha
    simp only [List.mem_singleton] at ha
    subst ha
    decide
  · intro id hid a ha
    simp only [List.mem_singleton] at ha
    subst ha
    have h9 : truthyId (statusIdOf "https://x.com/u/status/9") = some "9" := by decide
    rw [h9] at hid
    injection hid with hid
    subst hid
    decide

/-! ### C3: idempotence of the action executor on already-liked items -/

/-- C3: when the located target article already shows the unlike marker,
every invocation of `likeTweetById` returns `ok = true, already = true` with
zero clicks performed — so two successive invocations yield that same result
twice — and pushing that result through the mutation step of the orchestrator
leaves `dayCount` and `likedCount` unchanged, keeps `liked` holding the id,
and a second application leaves the ledger exactly as after the first. -/
theorem likeTweetById_idempotent_already (page : List Article) (statusUrl : String)
    (art : Article) (hfind : findTarget page statusUrl = some art)
    (hmark : art.unlikeVisible = true) :
    (∀ clickOutcome : Nat → Option String,
      likeTweetById page statusUrl clickOutcome =
        Except.ok ({ ok := true, already := true, reason := none }, 0)) ∧
    (∀ st : LoopState,
      ((applyLikeOutcome st statusUrl (truthyId (statusIdOf statusUrl))
          (Except.ok { ok := true, already := true, reason := none })).ledger.dayCount =
        st.ledger.dayCount ∧
       (applyLikeOutcome st statusUrl (truthyId (statusIdOf statusUrl))
          (Except.ok { ok := true, already := true, reason := none })).likedCount =
        st.likedCount) ∧
      (∀ id, truthyId (statusIdOf statusUrl) = some id →
        (applyLikeOutcome st statusUrl (truthyId (statusIdOf statusUrl))
          (Except.ok { ok := true, already := true, reason := none })).ledger.liked.contains
            id = true) ∧
      (applyLikeOutcome
          (applyLikeOutcome st statusUrl (truthyId (statusIdOf statusUrl))
            (Except.ok { ok := true, already := true, reason := none }))
          statusUrl (truthyId (statusIdOf statusUrl))
          (Except.ok { ok := true, already := true, reason := none })).ledger =
        (applyLikeOutcome st statusUrl (truthyId (statusIdOf statusUrl))
          (Except.ok { ok := true, already := true, reason := none })).ledger) := by
  constructor
  · intro clickOutcome
    simp [likeTweetById, likeLoop, hfind, hmark]
  · intro st
    cases h : truthyId (statusIdOf statusUrl) with
    | none =>
      refine ⟨⟨rfl, rfl⟩, ?_, rfl⟩
      intro id hid
      simp [h] at hid
    | some id =>
      refine ⟨⟨rfl, rfl⟩, ?_, ?_⟩
      · intro id2 hid2
        injection hid2 with hid2
        subst hid2
        simp [applyLikeOutcome]
        exact mem_of_contains _ _ (insertStr_contains_self _ _)
      · simp [applyLikeOutcome, insertStr_idem]

/-- Witness for C3: a page whose only article is the already-liked target. -/
theorem likeTweetById_idempotent_already_witness :
    likeTweetById [{ links := ["https://x.com/u/status/5"], unlikeVisible := true }]
        "https://x.com/u/status/5" (fun _ => none) =
      Except.ok ({ ok := true, already := true, reason := none }, 0) :=
  (likeTweetById_idempotent_already
      [{ links := ["https://x.com/u/status/5"], unlikeVisible := true }]
      "https://x.com/u/status/5"
      { links := ["https://x.com/u/status/5"], unlikeVisible := true }
      (by decide) rfl).1 (fun _ => none)

/-! ### C10: atomicity of per-item failure -/

/-- C10: a thrown executor exception or an `ok = false` result leaves the
loop state untouched except for recording the URL as processed — in
particular the ledger is unchanged and no save happens — while an `ok = true`
result saves exactly once and bumps `dayCount` only when `already` is
absent. -/
theorem applyLikeOutcome_atomic (st : LoopState) (statusUrl : String)
    (statusId : Option String) (outcome : Except String LikeResult) :
    (∀ e, outcome = Except.error e →
      applyLikeOutcome st statusUrl statusId outcome =
        { st with processedUrls := insertStr st.processedUrls statusUrl }) ∧
    (∀ r, outcome = Except.ok r → r.ok = false →
      applyLikeOutcome st statusUrl statusId outcome =
        { st with processedUrls := insertStr st.processedUrls statusUrl }) ∧
    (∀ r, outcome = Except.ok r → r.ok = true →
      (applyLikeOutcome st statusUrl statusId outcome).saves = st.saves + 1 ∧
      (applyLikeOutcome st statusUrl statusId outcome).ledger.dayCount =
        (if r.already then st.ledger.dayCount else st.ledger.dayCount + 1)) := by
  refine ⟨?_, ?_, ?_⟩
  · intro e he
    subst he
    rfl
  · intro r hr hok
    subst hr
    simp [applyLikeOutcome, hok]
  · intro r hr hok
    subst hr
    cases hal : r.already <;> cases statusId <;>
      simp [applyLikeOutcome, hok, hal]

/-- Witness for C10: a thrown exception leaves the initial loop state
unchanged apart from the processed-URL record. -/
theorem applyLikeOutcome_atomic_witness :
    applyLikeOutcome (initLoopState initialLedger []) "https://x.com/u/status/3"
        (some "3") (Except.error "detached") =
      { initLoopState initialLedger [] with
          processedUrls := insertStr (initLoopState initialLedger []).processedUrls
            "https://x.com/u/status/3" } :=
  (applyLikeOutcome_atomic (initLoopState initialLedger []) "https://x.com/u/status/3"
    (some "3") (Except.error "detached")).1 "detached" rfl

/-! ### Orchestrator loop lemmas -/

theorem applyLikeOutcome_counts (st : LoopState) (u : String) (sid : Option String)
    (o : Except String LikeResult) :
    (applyLikeOutcome st u sid o).ledger.dayCount ≤ st.ledger.dayCount + 1 ∧
    (applyLikeOutcome st u sid o).likedCount ≤ st.likedCount + 1 := by
  cases o with
  | error e => simp [applyLikeOutcome]
  | ok r =>
    cases hok : r.ok <;> cases hal : r.already <;> cases sid <;>
      simp [applyLikeOutcome, hok, hal]

theorem applyLikeOutcome_calls (st : LoopState) (u : String) (sid : Option String)
    (o : Except String LikeResult) :
    (applyLikeOutcome st u sid o).executorCalls = st.executorCalls := by
  cases o with
  | error e => rfl
  | ok r =>
    cases hok : r.ok <;> cases hal : r.already <;> cases sid <;>
      simp [applyLikeOutcome, hok, hal]

theorem applyLikeOutcome_liked_mono (st : LoopState) (u : String) (sid : Option String)
    (o : Except String LikeResult) (x : String) (hx : x ∈ st.ledger.liked) :
    x ∈ (applyLikeOutcome st u sid o).ledger.liked := by
  cases o with
  | error e => exact hx
  | ok r =>
    cases hok : r.ok <;> cases hal : r.already <;> cases sid <;>
      simp [applyLikeOutcome, hok, hal] <;>
      first
        | exact hx
        | exact mem_insertStr_of_mem _ _ _ hx

theorem handleItem_counts (st : LoopState) (w : World) (u : String) :
    (handleItem st w u).1.ledger.dayCount ≤ st.ledger.dayCount + 1 ∧
    (handleItem st w u).1.likedCount ≤ st.likedCount + 1 := by
  unfold handleItem
  dsimp only
  split
  · dsimp only
    omega
  · have h := applyLikeOutcome_counts { st with executorCalls := st.executorCalls ++ [u] }
      u (truthyId (statusIdOf u)) (nextLikeResult w).1
    simpa using h

theorem handleItem_liked_mono (st : LoopState) (w : World) (u : String) (x : String)
    (hx : x ∈ st.ledger.liked) : x ∈ (handleItem st w u).1.ledger.liked := by
  unfold handleItem
  dsimp only
  split
  · exact hx
  · exact applyLikeOutcome_liked_mono { st with executorCalls := st.executorCalls ++ [u] }
      u (truthyId (statusIdOf u)) (nextLikeResult w).1 x hx

theorem handleItem_calls (st : LoopState) (w : World) (u : String) (x : String)
    (hx : x ∈ (handleItem st w u).1.executorCalls) : x ∈ st.executorCalls ∨ x = u := by
  unfold handleItem at hx
  dsimp only at hx
  split at hx
  · exact Or.inl hx
  · rw [applyLikeOutcome_calls] at hx
    rcases List.mem_append.mp hx with h | h
    · exact Or.inl h
    · exact Or.inr (List.mem_singleton.mp h)

theorem actLoopBatch_caps (cfg : BotConfig) (urls : List String) (st : LoopState) (w : World)
    (hD : st.ledger.dayCount ≤ cfg.DAILY_CAP) (hT : st.likedCount ≤ cfg.TWEETS_TO_LIKE) :
    (actLoopBatch cfg urls st w).1.ledger.dayCount ≤ cfg.DAILY_CAP ∧
    (actLoopBatch cfg urls st w).1.likedCount ≤ cfg.TWEETS_TO_LIKE := by
  induction urls generalizing st w with
  | nil => exact ⟨hD, hT⟩
  | cons u rest ih =>
    unfold actLoopBatch
    split
    · exact ⟨hD, hT⟩
    · split
      · exact ⟨hD, hT⟩
      · rename_i h1 h2
        have hc := handleItem_counts st w u
        exact ih (handleItem st w u).1 (handleItem st w u).2 (by omega) (by omega)

theorem actLoopBatch_liked_mono (cfg : BotConfig) (urls : List String) (st : LoopState)
    (w : World) (x : String) (hx : x ∈ st.ledger.liked) :
    x ∈ (actLoopBatch cfg urls st w).1.ledger.liked := by
  induction urls generalizing st w with
  | nil => exact hx
  | cons u rest ih =>
    unfold actLoopBatch
    split
    · exact hx
    · split
      · exact hx
      · exact ih (handleItem st w u).1 (handleItem st w u).2 (handleItem_liked_mono st w u x hx)

theorem actLoopBatch_calls (cfg : BotConfig) (urls : List String) (st : LoopState)
    (w : World) (x : String)
    (hx : x ∈ (actLoopBatch cfg urls st w).1.executorCalls) :
    x ∈ st.executorCalls ∨ x ∈ urls := by
  induction urls generalizing st w with
  | nil => exact Or.inl hx
  | cons u rest ih =>
    unfold actLoopBatch at hx
    split at hx
    · exact Or.inl hx
    · split at hx
      · exact Or.inl hx
      · rcases ih (handleItem st w u).1 (handleItem st w u).2 hx with h | h
        · rcases handleItem_calls st w u x h with h2 | h2
          · exact Or.inl h2
          · exact Or.inr (by simp [h2])
        · exact Or.inr (List.mem_cons_of_mem u h)

theorem recollectMore_state (st : LoopState) (w : World) :
    (recollectMore st w).1.ledger = st.ledger ∧
    (recollectMore st w).1.likedCount = st.likedCount ∧
    (recollectMore st w).1.executorCalls = st.executorCalls :=
  ⟨rfl, rfl, rfl⟩

theorem remainingUrls_not_liked (st : LoopState) (u : String) (hu : u ∈ remainingUrls st)
    (id : String) (hid : id ∈ st.ledger.liked) : statusIdOf u ≠ some id := by
  intro hequ
  unfold remainingUrls at hu
  rw [List.mem_filter] at hu
  obtain ⟨-, hcond⟩ := hu
  rw [hequ] at hcond
  simp only [Bool.and_eq_true, Bool.not_eq_true'] at hcond
  have hmem : st.ledger.liked.contains id = true := List.elem_iff.mpr hid
  rw [hcond.1] at hmem
  simp at hmem

theorem processUrlLoop_caps (cfg : BotConfig) (fuel : Nat) (st : LoopState) (w : World)
    (hD : st.ledger.dayCount ≤ cfg.DAILY_CAP) (hT : st.likedCount ≤ cfg.TWEETS_TO_LIKE) :
    (processUrlLoop cfg fuel st w).1.ledger.dayCount ≤ cfg.DAILY_CAP ∧
    (processUrlLoop cfg fuel st w).1.likedCount ≤ cfg.TWEETS_TO_LIKE := by
  induction fuel generalizing st w with
  | zero => exact ⟨hD, hT⟩
  | succ fuel ih =>
    unfold processUrlLoop
    dsimp only
    split
    · split
      · exact ih (recollectMore st w).1 (recollectMore st w).2
          (by rw [(recollectMore_state st w).1]; exact hD)
          (by rw [(recollectMore_state st w).2.1]; exact hT)
      · have hb := actLoopBatch_caps cfg (remainingUrls st) st w hD hT
        split
        · split
          · exact ih _ _
              (by rw [(recollectMore_state _ _).1]; exact hb.1)
              (by rw [(recollectMore_state _ _).2.1]; exact hb.2)
          · exact ih _ _ hb.1 hb.2
        · exact ih _ _ hb.1 hb.2
    · exact ⟨hD, hT⟩

/-! ### C1: quota invariant of the per-target act loop -/

/-- C1: when the ledger loaded at run start satisfies
`dayCount ≤ DAILY_CAP`, the act loop run from the initial per-target state
never leaves `dayCount` above the daily cap nor the per-target non-already
like counter above `TWEETS_TO_LIKE`; moreover the bound is an invariant of
every intermediate loop state, so it holds at every point of the run. -/
theorem quota_invariant (cfg : BotConfig) (fuel : Nat) (ledger : Ledger)
    (tweetUrls : List String) (w : World)
    (hD : ledger.dayCount ≤ cfg.DAILY_CAP) :
    ((processUrlLoop cfg fuel (initLoopState ledger tweetUrls) w).1.ledger.dayCount ≤
        cfg.DAILY_CAP ∧
     (processUrlLoop cfg fuel (initLoopState ledger tweetUrls) w).1.likedCount ≤
        cfg.TWEETS_TO_LIKE) ∧
    (∀ st : LoopState, ∀ w2 : World, st.ledger.dayCount ≤ cfg.DAILY_CAP →
      st.likedCount ≤ cfg.TWEETS_TO_LIKE →
      (processUrlLoop cfg fuel st w2).1.ledger.dayCount ≤ cfg.DAILY_CAP ∧
      (processUrlLoop cfg fuel st w2).1.likedCount ≤ cfg.TWEETS_TO_LIKE) :=
  ⟨processUrlLoop_caps cfg fuel (initLoopState ledger tweetUrls) w hD (Nat.zero_le _),
   fun st w2 hD2 hT2 => processUrlLoop_caps cfg fuel st w2 hD2 hT2⟩

/-- Witness for C1: a concrete run with caps 2 and 10, three collected URLs
and an executor that likes everything. -/
theorem quota_invariant_witness :
    (processUrlLoop { TWEETS_TO_LIKE := 2, DAILY_CAP := 10 } 5
        (initLoopState { liked := [], dayCount := 0, dayStart := "2026-10-12" }
          ["https://x.com/u/status/1", "https://x.com/u/status/2", "https://x.com/u/status/3"])
        { likeResults := [Except.ok { ok := true, already := false, reason := none },
            Except.ok { ok := true, already := false, reason := none },
            Except.ok { ok := true, already := false, reason := none }],
          recollects := [] }).1.ledger.dayCount ≤ 10 :=
  (quota_invariant { TWEETS_TO_LIKE := 2, DAILY_CAP := 10 } 5
    { liked := [], dayCount := 0, dayStart := "2026-10-12" }
    ["https://x.com/u/status/1", "https://x.com/u/status/2", "https://x.com/u/status/3"]
    { likeResults := [Except.ok { ok := true, already := false, reason := none },
        Except.ok { ok := true, already := false, reason := none },
        Except.ok { ok := true, already := false, reason := none }],
      recollects := [] }
    (by decide)).1.1

theorem processUrlLoop_calls_dedup (cfg : BotConfig) (initLiked : List String)
    (fuel : Nat) (st : LoopState) (w : World)
    (hmono : ∀ x ∈ initLiked, x ∈ st.ledger.liked)
    (hcalls : ∀ u ∈ st.executorCalls, ∀ id ∈ initLiked, statusIdOf u ≠ some id) :
    (∀ x ∈ initLiked, x ∈ (processUrlLoop cfg fuel st w).1.ledger.liked) ∧
    (∀ u ∈ (processUrlLoop cfg fuel st w).1.executorCalls, ∀ id ∈ initLiked,
      statusIdOf u ≠ some id) := by
  induction fuel generalizing st w with
  | zero => exact ⟨hmono, hcalls⟩
  | succ fuel ih =>
    unfold processUrlLoop
    dsimp only
    split
    · split
      · refine ih (recollectMore st w).1 (recollectMore st w).2 ?_ ?_
        · rw [(recollectMore_state st w).1]
          exact hmono
        · rw [(recollectMore_state st w).2.2]
          exact hcalls
      · have hbatchMono : ∀ x ∈ initLiked,
            x ∈ (actLoopBatch cfg (remainingUrls st) st w).1.ledger.liked :=
          fun x hx => actLoopBatch_liked_mono cfg (remainingUrls st) st w x (hmono x hx)
        have hbatchCalls : ∀ u ∈ (actLoopBatch cfg (remainingUrls st) st w).1.executorCalls,
            ∀ id ∈ initLiked, statusIdOf u ≠ some id := by
          intro u hu id hid
          rcases actLoopBatch_calls cfg (remainingUrls st) st w u hu with h | h
          · exact hcalls u h id hid
          · exact remainingUrls_not_liked st u h id (hmono id hid)
        split
        · split
          · refine ih _ _ ?_ ?_
            · rw [(recollectMore_state _ _).1]
              exact hbatchMono
            · rw [(recollectMore_state _ _).2.2]
              exact hbatchCalls
          · exact ih _ _ hbatchMono hbatchCalls
        · exact ih _ _ hbatchMono hbatchCalls
    · exact ⟨hmono, hcalls⟩

/-! ### C4: dedup invariant -/

/-- C4: for every identifier recorded in `ledger.liked` at run start, the act
loop never invokes the action executor on a URL whose extracted status id
equals that identifier — such URLs are removed by the pre-dispatch filter and
by the in-loop re-check. -/
theorem dedup_invariant (cfg : BotConfig) (fuel : Nat) (ledger : Ledger)
    (tweetUrls : List String) (w : World) (id : String) (hid : id ∈ ledger.liked) :
    ∀ u ∈ (processUrlLoop cfg fuel (initLoopState ledger tweetUrls) w).1.executorCalls,
      statusIdOf u ≠ some id :=
  fun u hu =>
    (processUrlLoop_calls_dedup cfg ledger.liked fuel (initLoopState ledger tweetUrls) w
      (fun _ hx => hx)
      (fun u2 hu2 => absurd hu2 (List.not_mem_nil u2))).2 u hu id hid

/-- Witness for C4: with "7" already liked, the run invokes the executor only
on the fresh status 8, whose id differs from "7". -/
theorem dedup_invariant_witness :
    statusIdOf "https://x.com/u/status/8" ≠ some "7" :=
  dedup_invariant { TWEETS_TO_LIKE := 1, DAILY_CAP := 5 } 3
    { liked := ["7"], dayCount := 0, dayStart := "2026-10-12" }
    ["https://x.com/u/status/7", "https://x.com/u/status/8"]
    { likeResults := [Except.ok { ok := true, already := false, reason := none }],
      recollects := [] }
    "7" (by decide) "https://x.com/u/status/8" (by decide)

/-! ### C8: scan termination -/

theorem addUrls_length_le (maxScan : Nat) (l : List String) :
    ∀ acc : List String, acc.length ≤ maxScan →
      (addUrls maxScan acc l).length ≤ maxScan := by
  induction l with
  | nil => intro acc h; exact h
  | cons u rest ih =>
    intro acc h
    unfold addUrls
    split
    · exact h
    · rename_i hlt
      refine ih (insertStr acc u) ?_
      have := insertStr_length_le acc u
      omega

theorem collectAux_length_le (maxScan : Nat) (steps : List ScanStep) :
    ∀ (acc : List String) (lastHeight noChangeCount : Nat), acc.length ≤ maxScan →
      (collectAux maxScan steps acc lastHeight noChangeCount).1.length ≤ maxScan := by
  induction steps with
  | nil => intro acc lh nc h; exact h
  | cons step rest ih =>
    intro acc lh nc h
    unfold collectAux
    split
    · rename_i hcond
      exact ih _ _ _ (addUrls_length_le maxScan step.found acc h)
    · exact h

theorem collectAux_stop_no_change (maxScan : Nat) (steps : List ScanStep)
    (acc : List String) (lastHeight noChangeCount : Nat)
    (h : MAX_NO_CHANGE ≤ noChangeCount) :
    collectAux maxScan steps acc lastHeight noChangeCount = (acc, 0) := by
  cases steps with
  | nil => rfl
  | cons step rest =>
    unfold collectAux
    rw [if_neg]
    intro hcond
    omega

theorem collectAux_stop_ceiling (maxScan : Nat) (steps : List ScanStep)
    (acc : List String) (lastHeight noChangeCount : Nat)
    (h : maxScan ≤ acc.length) :
    collectAux maxScan steps acc lastHeight noChangeCount = (acc, 0) := by
  cases steps with
  | nil => rfl
  | cons step rest =>
    unfold collectAux
    rw [if_neg]
    intro hcond
    omega

theorem collectAux_cons_true (maxScan : Nat) (step : ScanStep) (rest : List ScanStep)
    (acc : List String) (lh nc : Nat)
    (hcond : acc.length < maxScan ∧ nc < MAX_NO_CHANGE) (hh : step.height = lh) :
    collectAux maxScan (step :: rest) acc lh nc =
      ((collectAux maxScan rest (addUrls maxScan acc step.found) lh (nc + 1)).1,
       (collectAux maxScan rest (addUrls maxScan acc step.found) lh (nc + 1)).2 + 1) := by
  conv_lhs => unfold collectAux
  rw [if_pos hcond, hh]
  simp

theorem collectAux_cons_false (maxScan : Nat) (step : ScanStep) (rest : List ScanStep)
    (acc : List String) (lh nc : Nat)
    (hcond : ¬(acc.length < maxScan ∧ nc < MAX_NO_CHANGE)) :
    collectAux maxScan (step :: rest) acc lh nc = (acc, 0) := by
  unfold collectAux
  rw [if_neg hcond]

theorem collectAux_flat_stops (maxScan : Nat) (steps : List ScanStep) :
    ∀ (rest : List ScanStep) (acc : List String) (lastHeight noChangeCount : Nat),
      (∀ s ∈ steps, s.height = lastHeight) →
      MAX_NO_CHANGE ≤ noChangeCount + steps.length →
      collectAux maxScan (steps ++ rest) acc lastHeight noChangeCount =
        collectAux maxScan steps acc lastHeight noChangeCount ∧
      (collectAux maxScan (steps ++ rest) acc lastHeight noChangeCount).2 ≤ steps.length := by
  induction steps with
  | nil =>
    intro rest acc lh nc hall hlen
    simp only [List.nil_append, List.length_nil, Nat.add_zero] at *
    rw [collectAux_stop_no_change maxScan rest acc lh nc hlen]
    exact ⟨rfl, Nat.le_refl 0⟩
  | cons step ss ih =>
    intro rest acc lh nc hall hlen
    have hstep : step.height = lh := hall step (List.mem_cons_self step ss)
    have hall2 : ∀ s ∈ ss, s.height = lh := fun s hs => hall s (List.mem_cons_of_mem step hs)
    rw [List.cons_append]
    by_cases hcond : acc.length < maxScan ∧ nc < MAX_NO_CHANGE
    · rw [collectAux_cons_true maxScan step (ss ++ rest) acc lh nc hcond hstep,
          collectAux_cons_true maxScan step ss acc lh nc hcond hstep]
      have ihr := ih rest (addUrls maxScan acc step.found) lh (nc + 1) hall2
        (by simp only [List.length_cons] at hlen; omega)
      refine ⟨?_, ?_⟩
      · rw [ihr.1]
      · have h2 := ihr.2
        simp only [List.length_cons]
        omega
    · rw [collectAux_cons_false maxScan step (ss ++ rest) acc lh nc hcond,
          collectAux_cons_false maxScan step ss acc lh nc hcond]
      exact ⟨rfl, Nat.zero_le _⟩

/-- C8: the scroll-and-collect loop of `collectTweetIds` never returns more
than `maxScan` URLs; it stops immediately once the collected count reaches
the ceiling; and three consecutive iterations with unchanged page height end
collection on the spot — the result is independent of whatever the page
would do afterwards, and at most 3 further iterations are consumed — even
when the ceiling has not been reached. -/
theorem scan_termination (maxScan : Nat) :
    (∀ steps : List ScanStep, (collectTweetIds maxScan steps).1.length ≤ maxScan) ∧
    (∀ (steps : List ScanStep) (acc : List String) (lh nc : Nat),
      maxScan ≤ acc.length → collectAux maxScan steps acc lh nc = (acc, 0)) ∧
    (∀ (s1 s2 s3 : ScanStep) (rest : List ScanStep) (acc : List String) (lh : Nat),
      s1.height = lh → s2.height = lh → s3.height = lh →
      collectAux maxScan (s1 :: s2 :: s3 :: rest) acc lh 0 =
        collectAux maxScan [s1, s2, s3] acc lh 0 ∧
      (collectAux maxScan (s1 :: s2 :: s3 :: rest) acc lh 0).2 ≤ 3) := by
  refine ⟨?_, ?_, ?_⟩
  · intro steps
    exact collectAux_length_le maxScan steps [] 0 0 (Nat.zero_le _)
  · intro steps acc lh nc h
    exact collectAux_stop_ceiling maxScan steps acc lh nc h
  · intro s1 s2 s3 rest acc lh h1 h2 h3
    have := collectAux_flat_stops maxScan [s1, s2, s3] rest acc lh 0
      (by
        intro s hs
        simp only [List.mem_cons, List.mem_singleton, List.not_mem_nil, or_false] at hs
        rcases hs with rfl | rfl | rfl
        exacts [h1, h2, h3])
      (by simp [MAX_NO_CHANGE])
    simpa using this

/-- Witness for C8: with ceiling 5 and four flat-height iterations, the
fourth is never consumed and at most 3 iterations run. -/
theorem scan_termination_witness :
    collectAux 5 [⟨["a"], 0⟩, ⟨["b"], 0⟩, ⟨["c"], 0⟩, ⟨["d"], 0⟩] [] 0 0 =
      collectAux 5 [⟨["a"], 0⟩, ⟨["b"], 0⟩, ⟨["c"], 0⟩] [] 0 0 ∧
    (collectAux 5 [⟨["a"], 0⟩, ⟨["b"], 0⟩, ⟨["c"], 0⟩, ⟨["d"], 0⟩] [] 0 0).2 ≤ 3 :=
  (scan_termination 5).2.2 ⟨["a"], 0⟩ ⟨["b"], 0⟩ ⟨["c"], 0⟩ [⟨["d"], 0⟩] [] 0 rfl rfl rfl

/-! ### C9: ContentIdentifier extraction -/

theorem strSplitAux_fuel (sep : List Char) (hsep : sep ≠ []) :
    ∀ (f1 f2 : Nat) (s acc : List Char), s.length ≤ f1 → s.length ≤ f2 →
      strSplitAux sep f1 s acc = strSplitAux sep f2 s acc := by
  intro f1
  induction f1 with
  | zero =>
    intro f2 s acc h1 h2
    have hs : s = [] := List.length_eq_zero.mp (Nat.le_zero.mp h1)
    subst hs
    cases f2 <;> simp [strSplitAux]
  | succ f ih =>
    intro f2 s acc h1 h2
    cases s with
    | nil => cases f2 <;> simp [strSplitAux]
    | cons c rest =>
      cases f2 with
      | zero => simp at h2
      | succ g =>
        have hsl : 1 ≤ sep.length := by
          cases sep with
          | nil => exact absurd rfl hsep
          | cons a l => simp
        simp only [strSplitAux]
        by_cases hp : sep.isPrefixOf (c :: rest) = true
        · rw [if_pos hp, if_pos hp]
          have hd := List.length_drop sep.length (c :: rest)
          simp only [List.length_cons] at h1 h2 hd
          rw [ih g (List.drop sep.length (c :: rest)) [] (by omega) (by omega)]
        · rw [if_neg hp, if_neg hp]
          simp only [List.length_cons] at h1 h2
          exact ih g rest (c :: acc) (by omega) (by omega)

theorem strSplitAux_no_sep (c0 : Char) (sep2 : List Char) :
    ∀ (fuel : Nat) (b acc : List Char), b.length ≤ fuel → c0 ∉ b →
      strSplitAux (c0 :: sep2) fuel b acc = [acc.reverse ++ b] := by
  intro fuel
  induction fuel with
  | zero =>
    intro b acc h1 h2
    have hb : b = [] := List.length_eq_zero.mp (Nat.le_zero.mp h1)
    subst hb
    rfl
  | succ f ih =>
    intro b acc h1 h2
    cases b with
    | nil => simp [strSplitAux]
    | cons c rest =>
      have hc : (c0 == c) = false := by
        apply beq_eq_false_iff_ne.mpr
        intro h
        exact h2 (h ▸ List.mem_cons_self c rest)
      have hp : (c0 :: sep2).isPrefixOf (c :: rest) = false := by
        simp [List.isPrefixOf, hc]
      simp only [strSplitAux, hp, Bool.false_eq_true, if_false]
      have hmem : c0 ∉ rest := fun h => h2 (List.mem_cons_of_mem c h)
      simp only [List.length_cons] at h1
      rw [ih rest (c :: acc) (by omega) hmem]
      simp

theorem strSplitAux_boundary (sep : List Char) (hsep : sep ≠ []) (b : List Char) :
    ∀ (a : List Char), ∀ (acc : List Char) (fuel : Nat),
      (a ++ sep ++ b).length ≤ fuel →
      (∀ i, i < a.length → sep.isPrefixOf (List.drop i (a ++ sep ++ b)) = false) →
      strSplitAux sep fuel (a ++ sep ++ b) acc =
        (acc.reverse ++ a) :: strSplitAux sep b.length b [] := by
  intro a
  induction a with
  | nil =>
    intro acc fuel hfuel hscan
    have hsl : 1 ≤ sep.length := by
      cases sep with
      | nil => exact absurd rfl hsep
      | cons x l => simp
    cases fuel with
    | zero =>
      exfalso
      simp only [List.nil_append, List.length_append] at hfuel
      omega
    | succ f =>
      cases hsepc : sep with
      | nil => exact absurd hsepc hsep
      | cons c0 sep2 =>
        subst hsepc
        simp only [List.nil_append, List.cons_append, strSplitAux]
        have hp : (c0 :: sep2).isPrefixOf (c0 :: (sep2 ++ b)) = true := by
          rw [List.isPrefixOf_iff_prefix]
          exact List.prefix_append (c0 :: sep2) b
        rw [if_pos hp]
        have hdrop : List.drop (c0 :: sep2).length (c0 :: (sep2 ++ b)) = b := by
          simp only [List.length_cons, List.drop_succ_cons]
          exact List.drop_left sep2 b
        rw [hdrop]
        have hfb : b.length ≤ f := by
          simp only [List.nil_append, List.length_append, List.length_cons] at hfuel
          omega
        rw [strSplitAux_fuel (c0 :: sep2) hsep f b.length b [] hfb (Nat.le_refl _)]
        simp
  | cons c a2 ih =>
    intro acc fuel hfuel hscan
    have hsl : 1 ≤ sep.length := by
      cases sep with
      | nil => exact absurd rfl hsep
      | cons x l => simp
    cases fuel with
    | zero =>
      exfalso
      simp only [List.cons_append, List.length_append, List.length_cons] at hfuel
      omega
    | succ f =>
      have hsc : (c :: a2) ++ sep ++ b = c :: (a2 ++ sep ++ b) := by simp
      have hneg : sep.isPrefixOf (c :: (a2 ++ sep ++ b)) = false := by
        have h0 := hscan 0 (by simp)
        rw [List.drop_zero, hsc] at h0
        exact h0
      rw [hsc]
      conv_lhs => unfold strSplitAux
      dsimp only
      rw [if_neg (by rw [hneg]; decide)]
      have hscan2 : ∀ i, i < a2.length →
          sep.isPrefixOf (List.drop i (a2 ++ sep ++ b)) = false := by
        intro i hi
        have h1 := hscan (i + 1) (by simp only [List.length_cons]; omega)
        rw [hsc, List.drop_succ_cons] at h1
        exact h1
      have hf2 : (a2 ++ sep ++ b).length ≤ f := by
        rw [hsc] at hfuel
        simp only [List.length_cons] at hfuel
        omega
      rw [ih (c :: acc) f hf2 hscan2]
      simp

theorem jsSplit_boundary (pre id : String)
    (hscan : ∀ i, i < pre.data.length →
      ("/status/".data).isPrefixOf
        (List.drop i (pre.data ++ "/status/".data ++ id.data)) = false)
    (hslash : '/' ∉ id.data) :
    jsSplit (pre ++ "/status/" ++ id) "/status/" = [pre, id] := by
  unfold jsSplit
  have hdata : (pre ++ "/status/" ++ id).data =
      pre.data ++ "/status/".data ++ id.data := by
    rw [String.data_append, String.data_append]
  rw [hdata]
  rw [strSplitAux_boundary "/status/".data (by decide) id.data pre.data []
      ((pre.data ++ "/status/".data ++ id.data).length + 1) (by omega) hscan]
  have hsepchar : "/status/".data = '/' :: "status/".data := rfl
  rw [hsepchar, strSplitAux_no_sep '/' ("status/".data) id.data.length id.data []
      (Nat.le_refl _) hslash]
  rfl

theorem beforeQuery_no_query (s : String) (h : '?' ∉ s.data) : beforeQuery s = s := by
  unfold beforeQuery jsSplit
  have hq : "?".data = '?' :: ([] : List Char) := rfl
  rw [hq, strSplitAux_no_sep '?' [] (s.data.length + 1) s.data [] (by omega) h]
  rfl

theorem allDigits_no_special (s : String) (h : allDigits s = true) :
    '/' ∉ s.data ∧ '?' ∉ s.data := by
  unfold allDigits at h
  rw [List.all_eq_true] at h
  constructor
  · intro hm
    exact absurd (h '/' hm) (by decide)
  · intro hm
    exact absurd (h '?' hm) (by decide)

/-- C9 counterexample: a permalink with trailing path segments, of the
normalized form Content Discovery emits, is keyed by everything after
`/status/` — here `123/photo/1`, which is not made of decimal digits only. -/
theorem statusIdOf_counterexample :
    statusIdOf "https://x.com/u/status/123/photo/1" = some "123/photo/1" ∧
    allDigits "123/photo/1" = false :=
  ⟨by decide, by decide⟩

/-- C9 (amended): the dedup key is the permalink segment after the first
`/status/`, truncated at the first `?`; it is a deterministic function of
the permalink string (hence stable across re-scrolls of the same item), and
for canonical permalinks that end at the status id — no trailing path
segments — it is exactly the decimal digits of the status id. -/
theorem statusIdOf_extraction (pre id : String)
    (hscan : ∀ i, i < pre.data.length →
      ("/status/".data).isPrefixOf
        (List.drop i (pre.data ++ "/status/".data ++ id.data)) = false)
    (hdig : allDigits id = true) :
    (statusIdOf (pre ++ "/status/" ++ id) = some id ∧ allDigits id = true) ∧
    (∀ u v : String, u = v → statusIdOf u = statusIdOf v) := by
  have hspec := allDigits_no_special id hdig
  refine ⟨⟨?_, hdig⟩, fun u v huv => huv ▸ rfl⟩
  unfold statusIdOf
  rw [jsSplit_boundary pre id hscan hspec.1]
  simp [beforeQuery_no_query id hspec.2]

/-- Witness for C9 (amended) on the canonical permalink
`https://x.com/u/status/12345`. -/
theorem statusIdOf_extraction_witness :
    statusIdOf ("https://x.com/u" ++ "/status/" ++ "12345") = some "12345" ∧
    allDigits "12345" = true :=
  (statusIdOf_extraction "https://x.com/u" "12345" (by decide) (by decide)).1
